import Mathlib

/-!
Verification of the mirage-model-genesis image-to-3D pipeline.

This file gives a shallow embedding of the core algorithms of the
repository and proves (or refutes) the specification claims about them:

* `Enhanced3DGenerator` from src/utils/enhancedImagePlane.ts
  (height map, normal map, edge map, displacement application);
* the provider adapters from src/utils/meshyAiService.ts,
  rodinService.ts, csmService.ts, huggingFaceService.ts
  (the revisions that carry the 1000-byte and 5000-byte validations,
  which are the ones the specification describes);
* the model normalization block shared by the model hooks
  (src/components/ModelViewer/hooks/useMeshyAiModel.ts and
  useRodinModel.ts);
* the sequential API orchestration of
  src/components/ModelViewer/ModelLoader.tsx.

Conventions of the embedding:

* Canvas pixel data (`Uint8ClampedArray`) is modelled as a flat function
  `Nat → Nat` over RGBA byte indices, exactly as the source indexes it
  (`(y * width + x) * 4 + channel`).
* JavaScript floating-point arithmetic is modelled exactly: rational
  arithmetic (`ℚ`) where the source stays in `+ - * min max abs`, and
  real arithmetic (`ℝ`) where the source uses `Math.pow` / `Math.sqrt`.
  The final store into a `Uint8ClampedArray` (round + clamp) is not
  modelled: the claims are about the computed values.
* Fallible asynchronous code is modelled as total functions over an
  explicit environment describing the network responses, returning
  `Option` results together with the list of requests issued.
-/

/-- Decoded canvas image: dimensions plus the flat RGBA byte array
(`data[(y * width + x) * 4 + c]`), as read by
`context.getImageData` in `Enhanced3DGenerator.createAdvancedMaps`. -/
structure ImgData where
  width : Nat
  height : Nat
  data : Nat → Nat

/-- Embedding of `Enhanced3DGenerator.getLuminance`
(src/utils/enhancedImagePlane.ts line 260):
`0.299 * data[idx] + 0.587 * data[idx + 1] + 0.114 * data[idx + 2]`
with `idx = pixelIndex * 4`. -/
def getLuminance (data : Nat → Nat) (pixelIndex : Nat) : ℚ :=
  0.299 * data (pixelIndex * 4) + 0.587 * data (pixelIndex * 4 + 1)
    + 0.114 * data (pixelIndex * 4 + 2)

/-- Discrete Laplacian of the luminance at pixel (x, y), the quantity
`4 * center - top - bottom - left - right` computed inside
`Enhanced3DGenerator.createEdgeMap` (src/utils/enhancedImagePlane.ts
lines 125-131). -/
def laplacianAt (img : ImgData) (x y : Nat) : ℚ :=
  let center := getLuminance img.data (y * img.width + x)
  let top := getLuminance img.data ((y - 1) * img.width + x)
  let bottom := getLuminance img.data ((y + 1) * img.width + x)
  let left := getLuminance img.data (y * img.width + (x - 1))
  let right := getLuminance img.data (y * img.width + (x + 1))
  4 * center - top - bottom - left - right

/-- Embedding of `Enhanced3DGenerator.createEdgeMap`
(src/utils/enhancedImagePlane.ts lines 117-142) as a function from flat
RGBA index to stored value.  The source allocates a zero-initialized
`Uint8ClampedArray` and writes only interior pixels
(`1 <= x < width - 1`, `1 <= y < height - 1`); for those it stores
`min(255, Math.abs(4*center - top - bottom - left - right))` in R, G, B
and `255` in alpha.  All other indices keep their zero initialization. -/
def createEdgeMap (img : ImgData) : Nat → ℚ := fun i =>
  let p := i / 4
  let c := i % 4
  let x := p % img.width
  let y := p / img.width
  if 1 ≤ y ∧ y < img.height - 1 ∧ 1 ≤ x ∧ x < img.width - 1 then
    if c = 3 then 255
    else
      let edge := |laplacianAt img x y|
      min 255 edge
  else 0

/-- Edge-map value as the claim words it: the signed Laplacian clamped
to [0, 255], negative values mapping to 0.  Stated from the spec text
for comparison with `createEdgeMap`; the source takes the absolute
value instead. -/
def edgeMapClaimed (img : ImgData) (x y : Nat) : ℚ :=
  max 0 (min 255 (laplacianAt img x y))

/-- Test image for the edge-map claim: 3 x 3, the center pixel black,
every other pixel white. -/
def imgBlackDot : ImgData :=
  ⟨3, 3, fun i => if i / 4 = 4 ∧ i % 4 ≠ 3 then 0 else 255⟩

theorem edgeMap_interior_index (img : ImgData) (x y c : Nat)
    (hx1 : 1 ≤ x) (hx2 : x < img.width - 1)
    (hy1 : 1 ≤ y) (hy2 : y < img.height - 1) (hc : c < 4) :
    createEdgeMap img ((y * img.width + x) * 4 + c) =
      if c = 3 then 255 else min 255 |laplacianAt img x y| := by
  have hw : 0 < img.width := by omega
  unfold createEdgeMap
  have h1 : ((y * img.width + x) * 4 + c) / 4 = y * img.width + x := by
    omega
  have h2 : ((y * img.width + x) * 4 + c) % 4 = c := by
    omega
  have h3 : (y * img.width + x) % img.width = x := by
    rw [Nat.mul_comm y img.width, Nat.mul_add_mod]
    exact Nat.mod_eq_of_lt (by omega)
  have h4 : (y * img.width + x) / img.width = y := by
    rw [Nat.mul_comm y img.width, Nat.mul_add_div hw]
    rw [Nat.div_eq_of_lt (by omega)]
    omega
  simp only [h1, h2, h3, h4]
  rw [if_pos ⟨hy1, hy2, hx1, hx2⟩]

/-- C3, corrected: for every interior pixel the edge-map value in the
R, G, B channels equals `min(255, |4*center - top - bottom - left -
right|)` — the absolute value of the discrete Laplacian capped at 255
(so a large negative Laplacian maps to 255, not to 0 as the claim
says) — and the alpha channel is 255. -/
theorem C3_edgeMap_abs_laplacian (img : ImgData) (x y c : Nat)
    (hx1 : 1 ≤ x) (hx2 : x < img.width - 1)
    (hy1 : 1 ≤ y) (hy2 : y < img.height - 1) (hc : c < 3) :
    createEdgeMap img ((y * img.width + x) * 4 + c) =
        min 255 |laplacianAt img x y| ∧
      createEdgeMap img ((y * img.width + x) * 4 + 3) = 255 := by
  constructor
  · rw [edgeMap_interior_index img x y c hx1 hx2 hy1 hy2 (by omega)]
    rw [if_neg (by omega)]
  · rw [edgeMap_interior_index img x y 3 hx1 hx2 hy1 hy2 (by omega)]
    rw [if_pos rfl]

theorem laplacian_imgBlackDot : laplacianAt imgBlackDot 1 1 = -1020 := by
  norm_num [laplacianAt, getLuminance, imgBlackDot]

theorem edgeMap_imgBlackDot : createEdgeMap imgBlackDot ((1 * 3 + 1) * 4) = 255 := by
  have h := edgeMap_interior_index imgBlackDot 1 1 0 (by decide)
    (by decide) (by decide) (by decide) (by decide)
  rw [show (1 * 3 + 1) * 4 = (1 * imgBlackDot.width + 1) * 4 + 0 from rfl, h]
  rw [if_neg (by omega), laplacian_imgBlackDot]
  norm_num

/-- C3, counterexample to the claim as stated: on a 3 x 3 image whose
center pixel is black and whose neighbors are white, the Laplacian at
the interior pixel (1, 1) is -1020; the clamp described by the claim
would store 0, but the code stores `min(255, |-1020|) = 255`. -/
theorem C3_counterexample :
    laplacianAt imgBlackDot 1 1 = -1020 ∧
      edgeMapClaimed imgBlackDot 1 1 = 0 ∧
      createEdgeMap imgBlackDot ((1 * 3 + 1) * 4) = 255 ∧
      createEdgeMap imgBlackDot ((1 * 3 + 1) * 4) ≠ edgeMapClaimed imgBlackDot 1 1 := by
  have h1 := laplacian_imgBlackDot
  have h2 : edgeMapClaimed imgBlackDot 1 1 = 0 := by
    rw [edgeMapClaimed, h1]; norm_num
  have h3 := edgeMap_imgBlackDot
  exact ⟨h1, h2, h3, by rw [h2, h3]; norm_num⟩

/-- C3, witness: the corrected theorem applied at the concrete interior
pixel (1, 1) of the test image, where the stored value is 255. -/
theorem C3_edgeMap_abs_laplacian_witness :
    createEdgeMap imgBlackDot ((1 * 3 + 1) * 4) = min 255 |laplacianAt imgBlackDot 1 1| ∧
      createEdgeMap imgBlackDot ((1 * 3 + 1) * 4 + 3) = 255 :=
  C3_edgeMap_abs_laplacian imgBlackDot 1 1 0 (by decide) (by decide) (by decide)
    (by decide) (by decide)

/-- Decomposition of a flat RGBA index back into its pixel coordinates,
used to read off what the per-pixel loops of `Enhanced3DGenerator`
stored at `(y * width + x) * 4 + c`. -/
theorem flatIdx_decomp (img : ImgData) (x y c : Nat)
    (hx : x < img.width) (hc : c < 4) :
    ((y * img.width + x) * 4 + c) / 4 = y * img.width + x ∧
      ((y * img.width + x) * 4 + c) % 4 = c ∧
      (y * img.width + x) % img.width = x ∧
      (y * img.width + x) / img.width = y := by
  have hw : 0 < img.width := by omega
  refine ⟨by omega, by omega, ?_, ?_⟩
  · rw [Nat.mul_comm y img.width, Nat.mul_add_mod]
    exact Nat.mod_eq_of_lt hx
  · rw [Nat.mul_comm y img.width, Nat.mul_add_div hw, Nat.div_eq_of_lt hx]
    omega

/-- Embedding of the per-pixel height computed by
`Enhanced3DGenerator.createHeightMap` before the contrast curve
(src/utils/enhancedImagePlane.ts lines 48-58): combined luminance and
saturation, `luminance * 0.7 + saturation * 0.3`. -/
def heightBase (data : Nat → Nat) (p : Nat) : ℚ :=
  let r := data (p * 4)
  let g := data (p * 4 + 1)
  let b := data (p * 4 + 2)
  let luminance : ℚ := 0.299 * r + 0.587 * g + 0.114 * b
  let saturation : ℚ := (max r (max g b) : Nat) - (min r (min g b) : Nat)
  luminance * 0.7 + saturation * 0.3

/-- Embedding of `Enhanced3DGenerator.createHeightMap`
(src/utils/enhancedImagePlane.ts lines 45-71) as a function from flat
RGBA index to stored value: for every pixel of the image the contrast
curve `Math.pow(height / 255, 0.8) * 255` is stored in R, G and B, and
255 in alpha. -/
noncomputable def createHeightMap (img : ImgData) : Nat → ℝ := fun i =>
  let p := i / 4
  let c := i % 4
  if p < img.width * img.height then
    if c = 3 then 255
    else ((heightBase img.data p : ℝ) / 255) ^ (0.8 : ℝ) * 255
  else 0

/-- C8: for every pixel, the height-map value stored in each of R, G, B
equals `255 * (h / 255) ^ 0.8` with
`h = 0.7 * (0.299 R + 0.587 G + 0.114 B) + 0.3 * (max(R,G,B) - min(R,G,B))`,
and the alpha channel is 255.  The formula on the right-hand side is
spelled exactly as the claim words it. -/
theorem C8_heightMap_formula (img : ImgData) (x y c : Nat)
    (hx : x < img.width) (hy : y < img.height) (hc : c < 3) :
    createHeightMap img ((y * img.width + x) * 4 + c) =
        255 * (((0.7 * (0.299 * img.data ((y * img.width + x) * 4)
            + 0.587 * img.data ((y * img.width + x) * 4 + 1)
            + 0.114 * img.data ((y * img.width + x) * 4 + 2))
          + 0.3 * ((max (img.data ((y * img.width + x) * 4))
                (max (img.data ((y * img.width + x) * 4 + 1))
                  (img.data ((y * img.width + x) * 4 + 2))) : Nat)
              - (min (img.data ((y * img.width + x) * 4))
                (min (img.data ((y * img.width + x) * 4 + 1))
                  (img.data ((y * img.width + x) * 4 + 2))) : Nat)) : ℚ) : ℝ)
          / 255) ^ (0.8 : ℝ) ∧
      createHeightMap img ((y * img.width + x) * 4 + 3) = 255 := by
  have hp : y * img.width + x < img.width * img.height := by
    have h1 : y * img.width + x < (y + 1) * img.width := by
      rw [Nat.succ_mul]; omega
    have h2 : (y + 1) * img.width ≤ img.height * img.width :=
      Nat.mul_le_mul_right img.width (by omega)
    rw [Nat.mul_comm img.width img.height]
    omega
  obtain ⟨d1, d2, -, -⟩ := flatIdx_decomp img x y c hx (by omega)
  obtain ⟨e1, e2, -, -⟩ := flatIdx_decomp img x y 3 hx (by omega)
  constructor
  · show (if ((y * img.width + x) * 4 + c) / 4 < img.width * img.height then
        if ((y * img.width + x) * 4 + c) % 4 = 3 then (255 : ℝ)
        else ((heightBase img.data (((y * img.width + x) * 4 + c) / 4) : ℝ) / 255)
          ^ (0.8 : ℝ) * 255
      else 0) = _
    rw [d1, d2, if_pos hp, if_neg (by omega)]
    rw [heightBase]
    push_cast
    ring_nf
  · show (if ((y * img.width + x) * 4 + 3) / 4 < img.width * img.height then
        if ((y * img.width + x) * 4 + 3) % 4 = 3 then (255 : ℝ)
        else ((heightBase img.data (((y * img.width + x) * 4 + 3) / 4) : ℝ) / 255)
          ^ (0.8 : ℝ) * 255
      else 0) = 255
    rw [e1, e2, if_pos hp, if_pos rfl]

/-- Test image for witnesses: 3 x 3, every byte zero (fully black,
transparent). -/
def imgBlack : ImgData := ⟨3, 3, fun _ => 0⟩

/-- C8, witness: the height-map theorem applied at pixel (0, 0) of the
all-black image, where both sides evaluate to 0. -/
theorem C8_heightMap_formula_witness :
    (0 < 3 ∧ 0 < 3 ∧ 0 < 3) ∧
      (createHeightMap imgBlack 0 =
          255 * (((0.7 * (0.299 * imgBlack.data 0 + 0.587 * imgBlack.data 1
              + 0.114 * imgBlack.data 2)
            + 0.3 * ((max (imgBlack.data 0) (max (imgBlack.data 1) (imgBlack.data 2)) : Nat)
                - (min (imgBlack.data 0) (min (imgBlack.data 1) (imgBlack.data 2)) : Nat)) : ℚ) : ℝ)
            / 255) ^ (0.8 : ℝ) ∧
        createHeightMap imgBlack 3 = 255) :=
  ⟨⟨by decide, by decide, by decide⟩,
    C8_heightMap_formula imgBlack 0 0 0 (by decide) (by decide) (by decide)⟩

/-- Embedding of the Sobel x-gradient computed inside
`Enhanced3DGenerator.createEnhancedNormalMap`
(src/utils/enhancedImagePlane.ts line 94):
`(tr + 2 * mr + br) - (tl + 2 * ml + bl)` over the luminance of the
3 x 3 neighborhood of (x, y). -/
def sobelX (img : ImgData) (x y : Nat) : ℚ :=
  let tl := getLuminance img.data ((y - 1) * img.width + (x - 1))
  let tr := getLuminance img.data ((y - 1) * img.width + (x + 1))
  let ml := getLuminance img.data (y * img.width + (x - 1))
  let mr := getLuminance img.data (y * img.width + (x + 1))
  let bl := getLuminance img.data ((y + 1) * img.width + (x - 1))
  let br := getLuminance img.data ((y + 1) * img.width + (x + 1))
  (tr + 2 * mr + br) - (tl + 2 * ml + bl)

/-- Embedding of the Sobel y-gradient of
`Enhanced3DGenerator.createEnhancedNormalMap`
(src/utils/enhancedImagePlane.ts line 95):
`(bl + 2 * bm + br) - (tl + 2 * tm + tr)`. -/
def sobelY (img : ImgData) (x y : Nat) : ℚ :=
  let tl := getLuminance img.data ((y - 1) * img.width + (x - 1))
  let tm := getLuminance img.data ((y - 1) * img.width + x)
  let tr := getLuminance img.data ((y - 1) * img.width + (x + 1))
  let bl := getLuminance img.data ((y + 1) * img.width + (x - 1))
  let bm := getLuminance img.data ((y + 1) * img.width + x)
  let br := getLuminance img.data ((y + 1) * img.width + (x + 1))
  (bl + 2 * bm + br) - (tl + 2 * tm + tr)

/-- Normal x-component before encoding
(src/utils/enhancedImagePlane.ts lines 98-99):
`nx = sobelX / 255 * strength` with the fixed `strength = 4.0`. -/
def nxVal (img : ImgData) (x y : Nat) : ℚ :=
  sobelX img x y / 255 * 4.0

/-- Normal y-component before encoding
(src/utils/enhancedImagePlane.ts line 100):
`ny = sobelY / 255 * strength` with the fixed `strength = 4.0`. -/
def nyVal (img : ImgData) (x y : Nat) : ℚ :=
  sobelY img x y / 255 * 4.0

/-- Normal z-component before encoding
(src/utils/enhancedImagePlane.ts line 101):
`nz = Math.sqrt(Math.max(0, 1 - nx * nx - ny * ny))`. -/
noncomputable def nzVal (img : ImgData) (x y : Nat) : ℝ :=
  Real.sqrt (max 0 (1 - (nxVal img x y : ℝ) * (nxVal img x y : ℝ)
    - (nyVal img x y : ℝ) * (nyVal img x y : ℝ)))

/-- Embedding of `Enhanced3DGenerator.createEnhancedNormalMap`
(src/utils/enhancedImagePlane.ts lines 76-112) as a function from flat
RGBA index to stored value.  Only interior pixels are written:
R = `Math.floor((nx + 1) * 127.5)`, G = `Math.floor((ny + 1) * 127.5)`,
B = `Math.floor(nz * 255)`, A = 255; every other index keeps the zero
initialization of the `Uint8ClampedArray`. -/
noncomputable def createEnhancedNormalMap (img : ImgData) : Nat → ℝ := fun i =>
  let p := i / 4
  let c := i % 4
  let x := p % img.width
  let y := p / img.width
  if 1 ≤ y ∧ y < img.height - 1 ∧ 1 ≤ x ∧ x < img.width - 1 then
    if c = 0 then (⌊(nxVal img x y + 1) * 127.5⌋ : ℤ)
    else if c = 1 then (⌊(nyVal img x y + 1) * 127.5⌋ : ℤ)
    else if c = 2 then (⌊nzVal img x y * 255⌋ : ℤ)
    else 255
  else 0

/-- C9, corrected: at an interior pixel the squared length of the
pre-encoding normal vector is `max 1 (nx^2 + ny^2)`, not 1: since
`nz = sqrt(max(0, 1 - nx^2 - ny^2))`, the vector is a unit vector
exactly when the scaled Sobel gradients satisfy `nx^2 + ny^2 ≤ 1`;
when they exceed unit magnitude, `nz` is clamped to 0 and the squared
length is `nx^2 + ny^2 > 1`. -/
theorem C9_normal_unit_iff_small_gradient (img : ImgData) (x y : Nat)
    (hx1 : 1 ≤ x) (hx2 : x < img.width - 1)
    (hy1 : 1 ≤ y) (hy2 : y < img.height - 1) :
    ((nxVal img x y : ℝ) ^ 2 + (nyVal img x y : ℝ) ^ 2 + nzVal img x y ^ 2 =
        max 1 ((nxVal img x y : ℝ) ^ 2 + (nyVal img x y : ℝ) ^ 2)) ∧
      ((nxVal img x y : ℝ) ^ 2 + (nyVal img x y : ℝ) ^ 2 ≤ 1 →
        (nxVal img x y : ℝ) ^ 2 + (nyVal img x y : ℝ) ^ 2 + nzVal img x y ^ 2 = 1) := by
  set a : ℝ := (nxVal img x y : ℝ) with ha
  set b : ℝ := (nyVal img x y : ℝ) with hb
  have hz : nzVal img x y ^ 2 = max 0 (1 - a ^ 2 - b ^ 2) := by
    rw [nzVal, sq, Real.mul_self_sqrt (le_max_left _ _)]
    ring_nf
  have hmain : a ^ 2 + b ^ 2 + nzVal img x y ^ 2 = max 1 (a ^ 2 + b ^ 2) := by
    rw [hz]
    rcases le_total (a ^ 2 + b ^ 2) 1 with h | h
    · rw [max_eq_right (by linarith), max_eq_left h]
      ring
    · rw [max_eq_left (by linarith), max_eq_right h]
      ring
  exact ⟨hmain, fun h => by rw [hmain, max_eq_left h]⟩

/-- Uniform test image: 3 x 3, every byte 7, so every Sobel gradient is
zero at the interior pixel. -/
def imgFlat : ImgData := ⟨3, 3, fun _ => 7⟩

/-- C9, witness: the corrected theorem applied at the interior pixel of
a uniform image, where nx = ny = 0 and the vector is exactly unit. -/
theorem C9_normal_unit_iff_small_gradient_witness :
    ((nxVal imgFlat 1 1 : ℝ) ^ 2 + (nyVal imgFlat 1 1 : ℝ) ^ 2 ≤ 1) ∧
      (nxVal imgFlat 1 1 : ℝ) ^ 2 + (nyVal imgFlat 1 1 : ℝ) ^ 2 +
        nzVal imgFlat 1 1 ^ 2 = 1 := by
  have hx : nxVal imgFlat 1 1 = 0 := by
    norm_num [nxVal, sobelX, getLuminance, imgFlat]
  have hy : nyVal imgFlat 1 1 = 0 := by
    norm_num [nyVal, sobelY, getLuminance, imgFlat]
  have hle : (nxVal imgFlat 1 1 : ℝ) ^ 2 + (nyVal imgFlat 1 1 : ℝ) ^ 2 ≤ 1 := by
    rw [hx, hy]; norm_num
  exact ⟨hle,
    (C9_normal_unit_iff_small_gradient imgFlat 1 1 (by decide) (by decide)
      (by decide) (by decide)).2 hle⟩

/-- Step test image for the normal map: 3 x 3, column x = 0 black,
column x = 1 dark gray (value 10), column x = 2 white, giving a strong
horizontal gradient at the interior pixel. -/
def imgStep : ImgData :=
  ⟨3, 3, fun i =>
    if i % 4 = 3 then 255
    else if i / 4 % 3 = 0 then 0
    else if i / 4 % 3 = 1 then 10
    else 255⟩

/-- C9, counterexample to the claim as stated: on the step image the
scaled gradient at the interior pixel is nx = 16, ny = 0, so nz is
clamped to 0 and the squared length of (nx, ny, nz) is 256, not 1: the
pre-encoding normal is not a unit vector. -/
theorem C9_counterexample :
    nxVal imgStep 1 1 = 16 ∧ nyVal imgStep 1 1 = 0 ∧ nzVal imgStep 1 1 = 0 ∧
      ¬((nxVal imgStep 1 1 : ℝ) ^ 2 + (nyVal imgStep 1 1 : ℝ) ^ 2 +
          nzVal imgStep 1 1 ^ 2 = 1) := by
  have hx : nxVal imgStep 1 1 = 16 := by
    norm_num [nxVal, sobelX, getLuminance, imgStep]
  have hy : nyVal imgStep 1 1 = 0 := by
    norm_num [nyVal, sobelY, getLuminance, imgStep]
  have hz : nzVal imgStep 1 1 = 0 := by
    rw [nzVal, hx, hy]
    norm_num
  refine ⟨hx, hy, hz, ?_⟩
  rw [hx, hy, hz]
  norm_num

/-- C10: the normal-map and edge-map loops write only interior pixels,
so every border pixel of both produced maps keeps its zero
initialization in all four channels, including alpha 0. -/
theorem C10_border_pixels_zero (img : ImgData) (x y c : Nat)
    (hx : x < img.width) (hy : y < img.height)
    (hborder : x = 0 ∨ x = img.width - 1 ∨ y = 0 ∨ y = img.height - 1)
    (hc : c < 4) :
    createEnhancedNormalMap img ((y * img.width + x) * 4 + c) = 0 ∧
      createEdgeMap img ((y * img.width + x) * 4 + c) = 0 := by
  obtain ⟨d1, d2, d3, d4⟩ := flatIdx_decomp img x y c hx hc
  have hnot : ¬(1 ≤ y ∧ y < img.height - 1 ∧ 1 ≤ x ∧ x < img.width - 1) := by
    omega
  constructor
  · show (if 1 ≤ ((y * img.width + x) * 4 + c) / 4 / img.width ∧
        ((y * img.width + x) * 4 + c) / 4 / img.width < img.height - 1 ∧
        1 ≤ ((y * img.width + x) * 4 + c) / 4 % img.width ∧
        ((y * img.width + x) * 4 + c) / 4 % img.width < img.width - 1 then _
      else (0 : ℝ)) = 0
    rw [d1, d3, d4, if_neg hnot]
  · show (if 1 ≤ ((y * img.width + x) * 4 + c) / 4 / img.width ∧
        ((y * img.width + x) * 4 + c) / 4 / img.width < img.height - 1 ∧
        1 ≤ ((y * img.width + x) * 4 + c) / 4 % img.width ∧
        ((y * img.width + x) * 4 + c) / 4 % img.width < img.width - 1 then _
      else (0 : ℚ)) = 0
    rw [d1, d3, d4, if_neg hnot]

/-- C10, witness: the border theorem applied at the corner pixel (0, 0)
of the step image, alpha channel included. -/
theorem C10_border_pixels_zero_witness :
    createEnhancedNormalMap imgStep 3 = 0 ∧ createEdgeMap imgStep 3 = 0 :=
  C10_border_pixels_zero imgStep 0 0 3 (by decide) (by decide) (Or.inl rfl) (by decide)

/-- Embedding of `Enhanced3DGenerator.sampleTexture`
(src/utils/enhancedImagePlane.ts lines 265-270):
`x = Math.floor(u * width)`, `y = Math.floor(v * height)`, read channel
R at `(y * width + x) * 4`.  A read outside the array (which yields
`undefined` in JavaScript) is totalized to 0; the claims below only
sample in range. -/
def sampleTexture (data : Nat → Nat) (u v : ℚ) (width height : Nat) : Nat :=
  let x := ⌊u * width⌋
  let y := ⌊v * height⌋
  let idx := (y * width + x) * 4
  if 0 ≤ idx then data idx.toNat else 0

/-- Embedding of the per-vertex displacement computed by
`Enhanced3DGenerator.applyAdvancedDisplacement`
(src/utils/enhancedImagePlane.ts lines 200-222) for a vertex at plane
position (x, y): `u = (x + 1) / 2`, `v = (y + 1) / 2`,
`baseHeight = heightValue / 255 * 0.5`,
`edgeBoost = edgeValue / 255 * 0.2`,
`finalHeight = Math.pow(baseHeight + edgeBoost, 1.2) * 2.0`,
stored by `positions.setZ`.  There is no dependence on the distance
from the plane center. -/
noncomputable def applyAdvancedDisplacement
    (heightData edgeData : ImgData) (x y : ℚ) : ℝ :=
  let u := (x + 1) / 2
  let v := (y + 1) / 2
  let heightValue := sampleTexture heightData.data u v heightData.width heightData.height
  let edgeValue := sampleTexture edgeData.data u v edgeData.width edgeData.height
  let baseHeight : ℚ := heightValue / 255 * 0.5
  let edgeBoost : ℚ := edgeValue / 255 * 0.2
  let totalDisplacement := baseHeight + edgeBoost
  ((totalDisplacement : ℝ)) ^ (1.2 : ℝ) * 2.0

/-- Displacement as the claim words it: the same height/edge formula
multiplied by the radial falloff `1 - min(1, distanceFromCenter^1.2)`
(the falloff only appears in the older revision
src/unnamed/part_013 `applyDisplacementToVertex`, applied there to a
different single-map displacement).  Stated from the spec text for
comparison with `applyAdvancedDisplacement`. -/
noncomputable def displacementClaimed
    (heightData edgeData : ImgData) (intensity : ℝ) (x y : ℚ) : ℝ :=
  let u := (x + 1) / 2
  let v := (y + 1) / 2
  let heightValue := sampleTexture heightData.data u v heightData.width heightData.height
  let edgeValue := sampleTexture edgeData.data u v edgeData.width edgeData.height
  let distFromCenter :=
    Real.sqrt ((((u : ℝ) - 0.5) * 2) ^ 2 + (((v : ℝ) - 0.5) * 2) ^ 2)
  let falloff := 1 - min 1 (distFromCenter ^ (1.2 : ℝ))
  (((heightValue / 255 * 0.5 + edgeValue / 255 * 0.2 : ℚ)) : ℝ) ^ (1.2 : ℝ)
    * intensity * falloff

/-- C4, corrected: every vertex receives
`(heightValue/255 * 0.5 + edgeValue/255 * 0.2)^1.2 * 2.0` with no
radial falloff; in particular any vertex (mesh boundary included) with
a positive sampled height value receives a strictly positive
displacement, not zero. -/
theorem C4_displacement_no_falloff (heightData edgeData : ImgData) (x y : ℚ) :
    applyAdvancedDisplacement heightData edgeData x y =
        (((sampleTexture heightData.data ((x + 1) / 2) ((y + 1) / 2)
              heightData.width heightData.height / 255 * 0.5
            + sampleTexture edgeData.data ((x + 1) / 2) ((y + 1) / 2)
              edgeData.width edgeData.height / 255 * 0.2 : ℚ)) : ℝ) ^ (1.2 : ℝ) * 2 ∧
      (0 < sampleTexture heightData.data ((x + 1) / 2) ((y + 1) / 2)
          heightData.width heightData.height →
        0 < applyAdvancedDisplacement heightData edgeData x y) := by
  constructor
  · rw [applyAdvancedDisplacement]
    norm_num
  · intro hpos
    rw [applyAdvancedDisplacement]
    have hbase : (0 : ℚ) < (sampleTexture heightData.data ((x + 1) / 2) ((y + 1) / 2)
        heightData.width heightData.height : ℚ) / 255 * 0.5 := by
      have : (0 : ℚ) < (sampleTexture heightData.data ((x + 1) / 2) ((y + 1) / 2)
          heightData.width heightData.height : ℚ) := by exact_mod_cast hpos
      positivity
    have hboost : (0 : ℚ) ≤ (sampleTexture edgeData.data ((x + 1) / 2) ((y + 1) / 2)
        edgeData.width edgeData.height : ℚ) / 255 * 0.2 := by positivity
    have htot : (0 : ℝ) < (((sampleTexture heightData.data ((x + 1) / 2) ((y + 1) / 2)
          heightData.width heightData.height : ℚ) / 255 * 0.5
        + (sampleTexture edgeData.data ((x + 1) / 2) ((y + 1) / 2)
          edgeData.width edgeData.height : ℚ) / 255 * 0.2 : ℚ) : ℝ) := by
      have : (0 : ℚ) < (sampleTexture heightData.data ((x + 1) / 2) ((y + 1) / 2)
            heightData.width heightData.height : ℚ) / 255 * 0.5
          + (sampleTexture edgeData.data ((x + 1) / 2) ((y + 1) / 2)
            edgeData.width edgeData.height : ℚ) / 255 * 0.2 := by linarith
      exact_mod_cast this
    have := Real.rpow_pos_of_pos htot (1.2 : ℝ)
    positivity

/-- Test height map: 2 x 2, every byte 255. -/
def mapWhite : ImgData := ⟨2, 2, fun _ => 255⟩

/-- Test edge map: 2 x 2, every byte 0. -/
def mapZero : ImgData := ⟨2, 2, fun _ => 0⟩

theorem sample_mapWhite :
    sampleTexture mapWhite.data ((1 + 1) / 2) ((-1 + 1) / 2) mapWhite.width mapWhite.height
      = 255 := by
  norm_num [sampleTexture, mapWhite]

/-- C4, counterexample to the claim as stated: the vertex at plane
position (1, -1) has `distanceFromCenter = sqrt 2 ≥ 1`, so the claimed
falloff formula yields displacement 0 there; but on an all-white height
map the code displaces it by `(0.5)^1.2 * 2 > 0`. -/
theorem C4_counterexample :
    displacementClaimed mapWhite mapZero 2 1 (-1) = 0 ∧
      0 < applyAdvancedDisplacement mapWhite mapZero 1 (-1) ∧
      applyAdvancedDisplacement mapWhite mapZero 1 (-1) ≠
        displacementClaimed mapWhite mapZero 2 1 (-1) := by
  have hsq2 : (1 : ℝ) ≤ Real.sqrt 2 := by
    nlinarith [Real.sq_sqrt (by norm_num : (0:ℝ) ≤ 2), Real.sqrt_nonneg (2:ℝ)]
  have hpow : (1 : ℝ) ≤ Real.sqrt 2 ^ ((6 : ℝ) / 5) := by
    calc (1 : ℝ) = (1 : ℝ) ^ ((6 : ℝ) / 5) := (Real.one_rpow _).symm
    _ ≤ Real.sqrt 2 ^ ((6 : ℝ) / 5) := by
        exact Real.rpow_le_rpow (by norm_num) hsq2 (by norm_num)
  have hclaimed : displacementClaimed mapWhite mapZero 2 1 (-1) = 0 := by
    rw [displacementClaimed]
    norm_num [sampleTexture, mapWhite, mapZero]
    rw [min_eq_left hpow]
    norm_num
  have hpos : 0 < applyAdvancedDisplacement mapWhite mapZero 1 (-1) :=
    (C4_displacement_no_falloff mapWhite mapZero 1 (-1)).2
      (by rw [sample_mapWhite]; norm_num)
  exact ⟨hclaimed, hpos, by rw [hclaimed]; exact ne_of_gt hpos⟩

/-- C4, witness: the corrected theorem applied at the boundary vertex
(1, -1) with the all-white height map, whose sampled height 255 is
positive, so the displacement is positive. -/
theorem C4_displacement_no_falloff_witness :
    0 < sampleTexture mapWhite.data ((1 + 1) / 2) ((-1 + 1) / 2)
        mapWhite.width mapWhite.height ∧
      0 < applyAdvancedDisplacement mapWhite mapZero 1 (-1) :=
  ⟨by rw [sample_mapWhite]; norm_num,
    (C4_displacement_no_falloff mapWhite mapZero 1 (-1)).2
      (by rw [sample_mapWhite]; norm_num)⟩

/-- Three-component rational vector, for bounding boxes and transforms
of the loaded model object. -/
@[ext] structure Vec3 where
  x : ℚ
  y : ℚ
  z : ℚ

/-- State of a loaded model object as the normalization block of
`useMeshyAiModel` / `useRodinModel` sees it: the bounding box of its
geometry in local coordinates, its current uniform scale and position,
and its yaw rotation.  The source computes both bounding boxes before
it assigns `model.rotation.y`, so the box arithmetic never sees the
rotation; `rotY` is carried as data only. -/
structure ModelState where
  boxMin : Vec3
  boxMax : Vec3
  scale : ℚ
  pos : Vec3
  rotY : ℝ

/-- World-space bounding-box minimum computed by
`new THREE.Box3().setFromObject(model)` for an axis-aligned model with
uniform nonnegative scale and a translation. -/
def worldMin (m : ModelState) : Vec3 :=
  ⟨m.scale * m.boxMin.x + m.pos.x, m.scale * m.boxMin.y + m.pos.y,
    m.scale * m.boxMin.z + m.pos.z⟩

/-- World-space bounding-box maximum, see `worldMin`. -/
def worldMax (m : ModelState) : Vec3 :=
  ⟨m.scale * m.boxMax.x + m.pos.x, m.scale * m.boxMax.y + m.pos.y,
    m.scale * m.boxMax.z + m.pos.z⟩

/-- Embedding of `box.getSize(new THREE.Vector3())`. -/
def worldSize (m : ModelState) : Vec3 :=
  ⟨(worldMax m).x - (worldMin m).x, (worldMax m).y - (worldMin m).y,
    (worldMax m).z - (worldMin m).z⟩

/-- Embedding of `box.getCenter(...)`. -/
def worldCenter (m : ModelState) : Vec3 :=
  ⟨((worldMin m).x + (worldMax m).x) / 2, ((worldMin m).y + (worldMax m).y) / 2,
    ((worldMin m).z + (worldMax m).z) / 2⟩

/-- Embedding of `Math.max(size.x, size.y, size.z)` over the world
bounding box (src/components/ModelViewer/hooks/useMeshyAiModel.ts
line 87). -/
def maxDimOf (m : ModelState) : ℚ :=
  max (worldSize m).x (max (worldSize m).y (worldSize m).z)

/-- Embedding of the normalization block shared by `useMeshyAiModel`
(lines 84-101) and `useRodinModel` (lines 76-93): compute the bounding
box and its largest dimension; if positive, overwrite the uniform scale
with `2.5 / maxDim` (`model.scale.set`); recompute the box with the new
scale and the old position; overwrite the position with minus the new
box center (`box.getCenter(model.position); model.position.multiplyScalar(-1)`);
finally set the fixed yaw (`model.rotation.y = Math.PI / 8` for Meshy,
`Math.PI / 6` for Rodin — passed in as `yawVal`). -/
def normalizeModel (yawVal : ℝ) (m : ModelState) : ModelState :=
  let maxDim := maxDimOf m
  let scale1 := if 0 < maxDim then (5 / 2) / maxDim else m.scale
  let m1 : ModelState := ⟨m.boxMin, m.boxMax, scale1, m.pos, m.rotY⟩
  let center := worldCenter m1
  ⟨m.boxMin, m.boxMax, scale1, ⟨-center.x, -center.y, -center.z⟩, yawVal⟩

/-- Already-normalized test state with a non-identity transform: base
box [0,5]^3 carried at scale 1/2 and position (-5/4, -5/4, -5/4), so
its world box is [-5/4, 5/4]^3 — centered at the origin with max
dimension exactly 5/2. -/
def mHalf : ModelState :=
  ⟨⟨0, 0, 0⟩, ⟨5, 5, 5⟩, 1 / 2, ⟨-(5 / 4), -(5 / 4), -(5 / 4)⟩, 0⟩

/-- C2, counterexample to the claim as stated: `mHalf` satisfies the
claim hypotheses (world box centered at the origin, max dimension 5/2),
yet re-running the normalization moves the center to (5/4, 5/4, 5/4)
and the max dimension to 5.  The reason: `model.scale.set(2.5/maxDim)`
overwrites the scale with 2.5/2.5 = 1, silently undoing the previous
normalization scale. -/
theorem C2_counterexample :
    worldCenter mHalf = ⟨0, 0, 0⟩ ∧ maxDimOf mHalf = 5 / 2 ∧
      (normalizeModel 0 mHalf).scale = 1 ∧
      worldCenter (normalizeModel 0 mHalf) = ⟨5 / 4, 5 / 4, 5 / 4⟩ ∧
      maxDimOf (normalizeModel 0 mHalf) = 5 ∧
      worldCenter (normalizeModel 0 mHalf) ≠ ⟨0, 0, 0⟩ ∧
      maxDimOf (normalizeModel 0 mHalf) ≠ 5 / 2 := by
  refine ⟨?_, ?_, ?_, ?_, ?_, ?_, ?_⟩ <;>
    simp [mHalf, normalizeModel, worldCenter, worldMin, worldMax, worldSize,
      maxDimOf, Vec3.ext_iff] <;> norm_num

/-- C2, corrected: the normalization step is idempotent only on an
already-normalized model whose transform is the identity (uniform
scale 1, position 0, i.e. whose base geometry box is itself centered
with max dimension 2.5); re-applying it then leaves the bounding-box
center at the origin and the largest dimension at 2.5.  With a
non-identity transform the re-application breaks both (see the
counterexample). -/
theorem C2_normalize_idempotent_on_identity (m : ModelState) (yawVal : ℝ)
    (h1 : worldCenter m = ⟨0, 0, 0⟩) (h2 : maxDimOf m = 5 / 2)
    (h3 : m.scale = 1) (h4 : m.pos = ⟨0, 0, 0⟩) :
    worldCenter (normalizeModel yawVal m) = ⟨0, 0, 0⟩ ∧
      maxDimOf (normalizeModel yawVal m) = 5 / 2 := by
  have hpos : (0 : ℚ) < maxDimOf m := by rw [h2]; norm_num
  have hscale1 : (if 0 < maxDimOf m then (5 / 2) / maxDimOf m else m.scale) = 1 := by
    rw [if_pos hpos, h2]
    norm_num
  have hx := congrArg Vec3.x h1
  have hy := congrArg Vec3.y h1
  have hz := congrArg Vec3.z h1
  have hpx := congrArg Vec3.x h4
  have hpy := congrArg Vec3.y h4
  have hpz := congrArg Vec3.z h4
  simp only [worldCenter, worldMin, worldMax, h3] at hx hy hz
  simp only [normalizeModel, hscale1]
  constructor
  · simp only [worldCenter, worldMin, worldMax, worldSize, Vec3.ext_iff] at *
    norm_num at *
    refine ⟨?_, ?_, ?_⟩ <;> linarith
  · simp only [maxDimOf, worldCenter, worldMin, worldMax, worldSize] at *
    rw [← h2]
    simp only [maxDimOf, worldSize, worldMin, worldMax, h3]
    norm_num

/-- Identity-transform normalized test state: base box [-5/4, 5/4]^3 at
scale 1 and position 0. -/
def mIdent : ModelState :=
  ⟨⟨-(5 / 4), -(5 / 4), -(5 / 4)⟩, ⟨5 / 4, 5 / 4, 5 / 4⟩, 1, ⟨0, 0, 0⟩, 0⟩

/-- C2, witness: the corrected theorem applied to the identity-transform
normalized state, which re-normalizes to itself. -/
theorem C2_normalize_idempotent_on_identity_witness :
    worldCenter (normalizeModel 0 mIdent) = ⟨0, 0, 0⟩ ∧
      maxDimOf (normalizeModel 0 mIdent) = 5 / 2 :=
  C2_normalize_idempotent_on_identity mIdent 0
    (by simp [mIdent, worldCenter, worldMin, worldMax, Vec3.ext_iff])
    (by simp [mIdent, maxDimOf, worldSize, worldMin, worldMax]; norm_num)
    rfl rfl

/-- Kinds of network requests a provider adapter can issue. -/
inductive Request where
  | fetchImage
  | submit
  | poll
  | download
deriving DecidableEq

/-- Outcome of one status poll, as the adapters branch on it:
`httpError` — the status response itself is not ok (the adapter bumps
`attempts` and continues); `waiting` — any status that is neither a
completed-with-output-url nor a failed status; `failed` — status
`failed` (the adapter returns null); `completed` — status `completed`
with the output URL present. -/
inductive PollOutcome where
  | httpError
  | waiting
  | failed
  | completed
deriving DecidableEq

/-- Result of a meshy/rodin polling loop. -/
inductive PollResult where
  | gotUrl
  | failedStatus
  | timedOut
deriving DecidableEq

/-- Environment describing the network responses one generate call
observes: whether the source-image fetch succeeds and its byte size,
whether the submit POST succeeds and carries a job id, the outcome of
each poll, and whether the model download succeeds and its byte size. -/
structure ProviderEnv where
  imageOk : Bool
  imageSize : Nat
  submitOk : Bool
  jobId : Bool
  poll : Nat → PollOutcome
  downloadOk : Bool
  modelSize : Nat

/-- Shared polling loop of `generateMeshyModel` (lines 112-153) and
`generateRodinModel` (lines 203-243): up to `fuel` further polls
starting at poll number `attempt`; an http error or a non-terminal
status consumes an attempt, `failed` aborts, `completed` yields the
model URL. -/
def pollLoop (env : ProviderEnv) : Nat → Nat → PollResult × List Request
  | 0, _ => (.timedOut, [])
  | fuel + 1, attempt =>
    match env.poll attempt with
    | .httpError =>
      let r := pollLoop env fuel (attempt + 1)
      (r.1, .poll :: r.2)
    | .waiting =>
      let r := pollLoop env fuel (attempt + 1)
      (r.1, .poll :: r.2)
    | .failed => (.failedStatus, [.poll])
    | .completed => (.gotUrl, [.poll])

/-- Embedding of `generateMeshyModel` (src/utils/meshyAiService.ts,
enhanced revision, lines 14-217).  Returns the model byte size on
success together with the list of requests issued.  Null outcomes:
missing API key (before any request), image fetch failure, image
smaller than 1000 bytes (before the submit POST), submit failure
(including the dedicated 401 branch, which also returns null), missing
job id, poll failure or timeout (35 attempts), download failure, and a
downloaded payload smaller than 5000 bytes. -/
def generateMeshyModel (hasKey : Bool) (env : ProviderEnv) :
    Option Nat × List Request :=
  if ¬hasKey then (none, [])
  else if ¬env.imageOk then (none, [.fetchImage])
  else if env.imageSize < 1000 then (none, [.fetchImage])
  else if ¬env.submitOk then (none, [.fetchImage, .submit])
  else if ¬env.jobId then (none, [.fetchImage, .submit])
  else
    match pollLoop env 35 0 with
    | (.failedStatus, reqs) => (none, .fetchImage :: .submit :: reqs)
    | (.timedOut, reqs) => (none, .fetchImage :: .submit :: reqs)
    | (.gotUrl, reqs) =>
      if ¬env.downloadOk then (none, .fetchImage :: .submit :: (reqs ++ [.download]))
      else if env.modelSize < 5000 then
        (none, .fetchImage :: .submit :: (reqs ++ [.download]))
      else (some env.modelSize, .fetchImage :: .submit :: (reqs ++ [.download]))

/-- Embedding of `generateRodinModel` (src/utils/rodinService.ts,
enhanced revision, lines 123-300): same pipeline as Meshy without the
API-key gate, with 25 poll attempts. -/
def generateRodinModel (env : ProviderEnv) : Option Nat × List Request :=
  if ¬env.imageOk then (none, [.fetchImage])
  else if env.imageSize < 1000 then (none, [.fetchImage])
  else if ¬env.submitOk then (none, [.fetchImage, .submit])
  else if ¬env.jobId then (none, [.fetchImage, .submit])
  else
    match pollLoop env 25 0 with
    | (.failedStatus, reqs) => (none, .fetchImage :: .submit :: reqs)
    | (.timedOut, reqs) => (none, .fetchImage :: .submit :: reqs)
    | (.gotUrl, reqs) =>
      if ¬env.downloadOk then (none, .fetchImage :: .submit :: (reqs ++ [.download]))
      else if env.modelSize < 5000 then
        (none, .fetchImage :: .submit :: (reqs ++ [.download]))
      else (some env.modelSize, .fetchImage :: .submit :: (reqs ++ [.download]))

/-- Shape of the CSM submit response: `status === 'processing'` (poll a
task), a direct `output_url`, or anything else (unexpected, null). -/
inductive CsmResponse where
  | processing
  | direct
  | unexpected
deriving DecidableEq

/-- Polling loop of `generateCsmModel` (enhanced revision, lines
180-245): unlike Meshy/Rodin, the download and the 5000-byte check
happen inside the loop when a poll reports completed. -/
def csmPollLoop (env : ProviderEnv) : Nat → Nat → Option Nat × List Request
  | 0, _ => (none, [])
  | fuel + 1, attempt =>
    match env.poll attempt with
    | .httpError =>
      let r := csmPollLoop env fuel (attempt + 1)
      (r.1, .poll :: r.2)
    | .waiting =>
      let r := csmPollLoop env fuel (attempt + 1)
      (r.1, .poll :: r.2)
    | .failed => (none, [.poll])
    | .completed =>
      if ¬env.downloadOk then (none, [.poll, .download])
      else if env.modelSize < 5000 then (none, [.poll, .download])
      else (some env.modelSize, [.poll, .download])

/-- Embedding of `generateCsmModel` (src/utils/csmService.ts, enhanced
revision, lines 110-310): image fetch and 1000-byte validation, submit
POST, then either a 20-attempt polling loop, a direct download (both
with the 5000-byte validation), or an unexpected-response null. -/
def generateCsmModel (env : ProviderEnv) (kind : CsmResponse) :
    Option Nat × List Request :=
  if ¬env.imageOk then (none, [.fetchImage])
  else if env.imageSize < 1000 then (none, [.fetchImage])
  else if ¬env.submitOk then (none, [.fetchImage, .submit])
  else
    match kind with
    | .processing =>
      let r := csmPollLoop env 20 0
      (r.1, .fetchImage :: .submit :: r.2)
    | .direct =>
      if ¬env.downloadOk then (none, [.fetchImage, .submit, .download])
      else if env.modelSize < 5000 then (none, [.fetchImage, .submit, .download])
      else (some env.modelSize, [.fetchImage, .submit, .download])
    | .unexpected => (none, [.fetchImage, .submit])

/-- Network responses observed while trying one Hugging Face model id
inside `generate3DModelFromImage` (src/utils/huggingFaceService.ts). -/
structure HfTry where
  imageOk : Bool
  imageSize : Nat
  respOk : Bool
  modelSize : Nat

/-- Embedding of `generate3DModelFromImage`
(src/utils/huggingFaceService.ts lines 22-135): each model id in turn;
a failed image fetch, an image under 1000 bytes, a failed POST, or a
payload under 5000 bytes all fall through to the next model id; the
first payload of at least 5000 bytes is returned; null after the list
is exhausted. -/
def generate3DModelFromImage : List HfTry → Option Nat
  | [] => none
  | t :: rest =>
    if ¬t.imageOk then generate3DModelFromImage rest
    else if t.imageSize < 1000 then generate3DModelFromImage rest
    else if ¬t.respOk then generate3DModelFromImage rest
    else if t.modelSize < 5000 then generate3DModelFromImage rest
    else some t.modelSize

/-- C5: for each network-backed adapter (Meshy, Rodin, CSM), a fetched
source image smaller than 1000 bytes makes the generate call return
null without ever issuing the submit POST to the provider. -/
theorem C5_small_image_no_submit (env : ProviderEnv) (hasKey : Bool)
    (kind : CsmResponse) (hsmall : env.imageSize < 1000) :
    ((generateMeshyModel hasKey env).1 = none ∧
        Request.submit ∉ (generateMeshyModel hasKey env).2) ∧
      ((generateRodinModel env).1 = none ∧
        Request.submit ∉ (generateRodinModel env).2) ∧
      ((generateCsmModel env kind).1 = none ∧
        Request.submit ∉ (generateCsmModel env kind).2) := by
  refine ⟨?_, ?_, ?_⟩
  · rw [generateMeshyModel]
    rcases hasKey with _ | _
    · simp
    · rcases h : env.imageOk with _ | _
      · simp [h]
      · simp [h, hsmall]
  · rw [generateRodinModel]
    rcases h : env.imageOk with _ | _
    · simp [h]
    · simp [h, hsmall]
  · rw [generateCsmModel.eq_def]
    rcases h : env.imageOk with _ | _
    · simp [h]
    · simp [h, hsmall]

/-- Environment for the witness: a 500-byte image, everything else
permissive. -/
def envTinyImage : ProviderEnv :=
  ⟨true, 500, true, true, fun _ => .completed, true, 100000⟩

/-- C5, witness: with a 500-byte image every adapter returns null and
issues no submit request. -/
theorem C5_small_image_no_submit_witness :
    ((generateMeshyModel true envTinyImage).1 = none ∧
        Request.submit ∉ (generateMeshyModel true envTinyImage).2) ∧
      ((generateRodinModel envTinyImage).1 = none ∧
        Request.submit ∉ (generateRodinModel envTinyImage).2) ∧
      ((generateCsmModel envTinyImage .processing).1 = none ∧
        Request.submit ∉ (generateCsmModel envTinyImage .processing).2) :=
  C5_small_image_no_submit envTinyImage true .processing (by decide)

theorem hf_all_small_none (tries : List HfTry)
    (h : ∀ t ∈ tries, t.modelSize < 5000) :
    generate3DModelFromImage tries = none := by
  induction tries with
  | nil => rfl
  | cons t rest ih =>
    have hts : t.modelSize < 5000 := h t (List.mem_cons_self t rest)
    have hrest : ∀ u ∈ rest, u.modelSize < 5000 :=
      fun u hu => h u (List.mem_cons_of_mem t hu)
    unfold generate3DModelFromImage
    split_ifs
    all_goals first | exact ih hrest | omega

/-- C6: if the provider reports completed but the downloaded model
payload is smaller than 5000 bytes, every adapter returns null rather
than the payload (the adapters also never throw: they are total and
return `Option`).  For Meshy, Rodin and CSM any sub-5000 download makes
the whole call null; for Hugging Face an undersized payload makes the
adapter fall through to its next internal model id, so the call is null
whenever every downloaded payload is undersized. -/
theorem C6_undersized_payload_null (env : ProviderEnv) (hasKey : Bool)
    (kind : CsmResponse) (tries : List HfTry)
    (hsmall : env.modelSize < 5000)
    (hft : ∀ t ∈ tries, t.modelSize < 5000) :
    (generateMeshyModel hasKey env).1 = none ∧
      (generateRodinModel env).1 = none ∧
      (generateCsmModel env kind).1 = none ∧
      generate3DModelFromImage tries = none := by
  have hcsmPoll : ∀ fuel attempt, (csmPollLoop env fuel attempt).1 = none := by
    intro fuel
    induction fuel with
    | zero => intro attempt; rfl
    | succ n ih =>
      intro attempt
      unfold csmPollLoop
      cases env.poll attempt <;> simp [ih] <;> split_ifs <;> first | rfl | omega
  refine ⟨?_, ?_, ?_, hf_all_small_none tries hft⟩
  · unfold generateMeshyModel
    rcases hpl : pollLoop env 35 0 with ⟨res, reqs⟩
    cases res <;> split_ifs <;> simp_all <;> omega
  · unfold generateRodinModel
    rcases hpl : pollLoop env 25 0 with ⟨res, reqs⟩
    cases res <;> split_ifs <;> simp_all <;> omega
  · unfold generateCsmModel
    cases kind <;> split_ifs <;> simp_all <;> omega

/-- Environment for the witness: everything succeeds but the provider
delivers a 2000-byte payload (the 2 KB scenario of the spec). -/
def envTinyModel : ProviderEnv :=
  ⟨true, 50000, true, true, fun _ => .completed, true, 2000⟩

/-- Hugging Face try list for the witness: one model id whose payload
is 2000 bytes. -/
def hfTinyTries : List HfTry := [⟨true, 50000, true, 2000⟩]

/-- C6, witness: with a 2000-byte completed payload all four adapters
return null. -/
theorem C6_undersized_payload_null_witness :
    (generateMeshyModel true envTinyModel).1 = none ∧
      (generateRodinModel envTinyModel).1 = none ∧
      (generateCsmModel envTinyModel .direct).1 = none ∧
      generate3DModelFromImage hfTinyTries = none :=
  C6_undersized_payload_null envTinyModel true .direct hfTinyTries (by decide)
    (by intro t ht; simp [hfTinyTries] at ht; rw [ht]; decide)

/-- The APIs of the priority queue, as strings in the source
(`useState<string[]>(['meshy', 'rodin', 'csm', 'huggingface', 'local'])`
in ModelViewerContext.tsx line 63). -/
inductive Api where
  | meshy
  | rodin
  | csm
  | huggingface
  | local
deriving DecidableEq

/-- Presence of the four configured API keys (`apiKeyManager.getKey`);
the keys are treated as fixed for the session. -/
structure ApiKeys where
  meshyAi : Bool
  csmAi : Bool
  rodinAi : Bool
  huggingFace : Bool

/-- Embedding of the credential guard of `processNextApi`
(ModelLoader.tsx lines 129-131):
`(apiToTry === 'meshy' && !apiKeys.meshyAi) || (apiToTry === 'csm' &&
!apiKeys.csmAi) || (apiToTry === 'rodin' && !apiKeys.rodinAi)`.
Hugging Face and local generation never require a key. -/
def requiresMissingKey (keys : ApiKeys) : Api → Bool
  | .meshy => !keys.meshyAi
  | .csm => !keys.csmAi
  | .rodin => !keys.rodinAi
  | .huggingface => false
  | .local => false

/-- Status of the generation attempt at one queue index.  The source
keeps no explicit status field; these values record the transitions the
orchestrator actually performs (skip branch, hook launch, hook
callbacks, the 30-second timer). -/
inductive AttemptStatus where
  | notStarted
  | skipped
  | running
  | failed
  | timedOut
  | succeeded
deriving DecidableEq

/-- Pointwise update of the status table. -/
def setStatus (f : Nat → AttemptStatus) (i : Nat) (st : AttemptStatus) :
    Nat → AttemptStatus :=
  fun j => if j = i then st else f j

/-- Session-fixed configuration: the priority queue and the keys. -/
structure LoaderConfig where
  apiPriority : List Api
  keys : ApiKeys

/-- State of the `ModelLoader` orchestration: `currentApiIndex` and
`isProcessing` mirror the two state hooks; `statuses` records each
attempt's lifecycle; `timers` holds the pending 30-second timers
scheduled by `processNextApi` (each remembers the index and API it was
scheduled for, as the timer callback closes over `apiToTry` and the
always-false-for-remote `modelGenerated` flag); `launched` is a ghost
log of the indices whose provider attempt was actually started;
`modelSource` records a successful `onModelLoaded`. -/
structure LoaderState where
  currentApiIndex : Nat
  isProcessing : Bool
  statuses : Nat → AttemptStatus
  timers : List (Nat × Api)
  launched : List Nat
  modelSource : Option Api

/-- Embedding of the `processNextApi` effect (ModelLoader.tsx lines
103-233) together with the hook activation it causes.  React re-runs
the effect after every state change, so the skip branch (which changes
state and returns) is modelled by recursion; `fuel` bounds it.
Branches, in source order: return if `isProcessing`; stop when the
queue is exhausted (lines 108-118); skip a provider whose key is
missing (lines 129-136: advance, release `isProcessing`, no attempt);
otherwise mark processing and schedule the 30-second timer (lines
216-222), while the hook whose `isActive` just became true launches the
attempt — at most once per index, since hook effects are edge
triggered. -/
def runEffect (cfg : LoaderConfig) : Nat → LoaderState → LoaderState
  | 0, s => s
  | fuel + 1, s =>
    if s.isProcessing then s
    else
      match cfg.apiPriority[s.currentApiIndex]? with
      | none => s
      | some api =>
        if requiresMissingKey cfg.keys api then
          runEffect cfg fuel
            { s with
              currentApiIndex := s.currentApiIndex + 1
              isProcessing := false
              statuses := setStatus s.statuses s.currentApiIndex .skipped }
        else if s.statuses s.currentApiIndex = .notStarted then
          { s with
            isProcessing := true
            timers := s.timers ++ [(s.currentApiIndex, api)]
            statuses := setStatus s.statuses s.currentApiIndex .running
            launched := s.launched ++ [s.currentApiIndex] }
        else
          { s with
            isProcessing := true
            timers := s.timers ++ [(s.currentApiIndex, api)] }

/-- External events delivered to the orchestration: a hook reporting a
loaded model or an error (guarded in ModelLoader.tsx by
`apiPriority[currentApiIndex] === api`, lines 274-341), the local
texture pipeline finishing or failing, and a scheduled 30-second timer
firing (lines 216-222). -/
inductive LoaderEvent where
  | hookSuccess (api : Api)
  | hookError (api : Api)
  | localSuccess
  | localError
  | timerFire (n : Nat)

/-- One event application, without the subsequent effect re-run.
The timer callback (lines 216-222) checks only `!modelGenerated`
(always false for remote attempts, since only the local branch sets it)
and `apiToTry !== 'local'`; it does not check whether
`currentApiIndex` still points at its own attempt, so a stale timer
also advances the index and releases `isProcessing`. -/
def applyEvent (cfg : LoaderConfig) (s : LoaderState) : LoaderEvent → LoaderState
  | .hookSuccess api =>
    if cfg.apiPriority[s.currentApiIndex]? = some api ∧ api ≠ .local ∧
        s.statuses s.currentApiIndex = .running then
      { s with
        isProcessing := false
        statuses := setStatus s.statuses s.currentApiIndex .succeeded
        modelSource := some api }
    else s
  | .hookError api =>
    if cfg.apiPriority[s.currentApiIndex]? = some api ∧ api ≠ .local ∧
        s.statuses s.currentApiIndex = .running then
      { s with
        currentApiIndex := s.currentApiIndex + 1
        isProcessing := false
        statuses := setStatus s.statuses s.currentApiIndex .failed }
    else s
  | .localSuccess =>
    if cfg.apiPriority[s.currentApiIndex]? = some .local ∧
        s.statuses s.currentApiIndex = .running then
      { s with
        isProcessing := false
        statuses := setStatus s.statuses s.currentApiIndex .succeeded
        modelSource := some .local }
    else s
  | .localError =>
    if cfg.apiPriority[s.currentApiIndex]? = some .local ∧
        s.statuses s.currentApiIndex = .running then
      { s with
        currentApiIndex := s.currentApiIndex + 1
        isProcessing := false
        statuses := setStatus s.statuses s.currentApiIndex .failed }
    else s
  | .timerFire n =>
    match s.timers[n]? with
    | none => s
    | some (i, api) =>
      if api = .local then { s with timers := s.timers.eraseIdx n }
      else
        { s with
          currentApiIndex := s.currentApiIndex + 1
          isProcessing := false
          statuses :=
            if s.currentApiIndex = i ∧ s.statuses i = .running then
              setStatus s.statuses i .timedOut
            else s.statuses
          timers := s.timers.eraseIdx n }

/-- One full step: the event, then the effect re-run triggered by the
state change (React re-renders and re-runs `processNextApi`). -/
def loaderStep (cfg : LoaderConfig) (s : LoaderState) (e : LoaderEvent) : LoaderState :=
  runEffect cfg (cfg.apiPriority.length + 1) (applyEvent cfg s e)

/-- Initial orchestration state after a new image resets everything
(ModelLoader.tsx lines 79-82). -/
def initLoaderState : LoaderState :=
  ⟨0, false, fun _ => .notStarted, [], [], none⟩

/-- Whole-session run: the initial effect, then one step per event. -/
def runLoader (cfg : LoaderConfig) (evs : List LoaderEvent) : LoaderState :=
  evs.foldl (loaderStep cfg) (runEffect cfg (cfg.apiPriority.length + 1) initLoaderState)

/-- Number of attempts currently in the running state. -/
def runningCount (cfg : LoaderConfig) (s : LoaderState) : Nat :=
  ((List.range cfg.apiPriority.length).filter
    (fun i => s.statuses i = .running)).length

theorem setStatus_same (f : Nat → AttemptStatus) (i : Nat) (st : AttemptStatus) :
    setStatus f i st i = st := by
  simp [setStatus]

theorem setStatus_other (f : Nat → AttemptStatus) (i : Nat) (st : AttemptStatus)
    (j : Nat) (h : j ≠ i) : setStatus f i st j = f j := by
  simp [setStatus, h]

theorem runEffect_idx_mono (cfg : LoaderConfig) :
    ∀ (fuel : Nat) (s : LoaderState),
      s.currentApiIndex ≤ (runEffect cfg fuel s).currentApiIndex := by
  intro fuel
  induction fuel with
  | zero => intro s; exact Nat.le_refl _
  | succ n ih =>
    intro s
    by_cases hp : s.isProcessing
    · simp [runEffect, hp]
    · rcases hq : cfg.apiPriority[s.currentApiIndex]? with _ | api
      · simp [runEffect, hp, hq]
      · by_cases hk : requiresMissingKey cfg.keys api
        · simp only [runEffect, hp, if_false, hq, hk, if_true, Bool.false_eq_true]
          exact Nat.le_trans (Nat.le_succ _)
            (ih { s with
              currentApiIndex := s.currentApiIndex + 1
              isProcessing := false
              statuses := setStatus s.statuses s.currentApiIndex .skipped })
        · by_cases hs : s.statuses s.currentApiIndex = .notStarted <;>
            simp [runEffect, hp, hq, hk, hs]

theorem runEffect_statuses_lower (cfg : LoaderConfig) :
    ∀ (fuel : Nat) (s : LoaderState) (i : Nat), i < s.currentApiIndex →
      (runEffect cfg fuel s).statuses i = s.statuses i := by
  intro fuel
  induction fuel with
  | zero => intro s i _; rfl
  | succ n ih =>
    intro s i hi
    by_cases hp : s.isProcessing
    · simp [runEffect, hp]
    · rcases hq : cfg.apiPriority[s.currentApiIndex]? with _ | api
      · simp [runEffect, hp, hq]
      · by_cases hk : requiresMissingKey cfg.keys api
        · simp only [runEffect, hp, if_false, hq, hk, if_true, Bool.false_eq_true]
          rw [ih _ i (by exact Nat.lt_succ_of_lt hi)]
          exact setStatus_other _ _ _ _ (by omega)
        · by_cases hs : s.statuses s.currentApiIndex = .notStarted
          · simp only [runEffect, hp, if_false, hq, hk, hs, if_true]
            exact setStatus_other _ _ _ _ (by omega)
          · simp [runEffect, hp, hq, hk, hs]

/-- Session invariant of the orchestration: every touched status lies
at or below the current index; every launched attempt has a started
status, a key-satisfied API and an index at or below the current one;
the launch log is strictly increasing; and skipped statuses occur only
at indices whose API has a missing required key. -/
structure LoaderInv (cfg : LoaderConfig) (s : LoaderState) : Prop where
  touched_le : ∀ i, s.statuses i ≠ .notStarted → i ≤ s.currentApiIndex
  launched_started : ∀ i ∈ s.launched, s.statuses i ≠ .notStarted
  launched_hasKey : ∀ i ∈ s.launched, ∃ api, cfg.apiPriority[i]? = some api ∧
      requiresMissingKey cfg.keys api = false
  launched_le : ∀ i ∈ s.launched, i ≤ s.currentApiIndex
  launched_sorted : List.Chain' (· < ·) s.launched
  skipped_missingKey : ∀ i, s.statuses i = .skipped → ∃ api,
      cfg.apiPriority[i]? = some api ∧ requiresMissingKey cfg.keys api = true

theorem runEffect_inv (cfg : LoaderConfig) :
    ∀ (fuel : Nat) (s : LoaderState), LoaderInv cfg s →
      LoaderInv cfg (runEffect cfg fuel s) := by
  intro fuel
  induction fuel with
  | zero => intro s h; exact h
  | succ n ih =>
    intro s hInv
    by_cases hp : s.isProcessing
    · simpa [runEffect, hp] using hInv
    · rcases hq : cfg.apiPriority[s.currentApiIndex]? with _ | api
      · simpa [runEffect, hp, hq] using hInv
      · by_cases hk : requiresMissingKey cfg.keys api
        · simp only [runEffect, hp, if_false, hq, hk, if_true, Bool.false_eq_true]
          apply ih
          refine ⟨?_, ?_, hInv.launched_hasKey, ?_, hInv.launched_sorted, ?_⟩
          · intro i hi
            dsimp only at hi ⊢
            by_cases hii : i = s.currentApiIndex
            · omega
            · rw [setStatus_other _ _ _ _ hii] at hi
              exact Nat.le_trans (hInv.touched_le i hi) (Nat.le_succ _)
          · intro i him
            dsimp only at him ⊢
            by_cases hii : i = s.currentApiIndex
            · subst hii; rw [setStatus_same]; intro hcon; cases hcon
            · rw [setStatus_other _ _ _ _ hii]
              exact hInv.launched_started i him
          · intro i him
            dsimp only at him ⊢
            exact Nat.le_trans (hInv.launched_le i him) (Nat.le_succ _)
          · intro i hi
            dsimp only at hi ⊢
            by_cases hii : i = s.currentApiIndex
            · subst hii; exact ⟨api, hq, hk⟩
            · rw [setStatus_other _ _ _ _ hii] at hi
              exact hInv.skipped_missingKey i hi
        · by_cases hs : s.statuses s.currentApiIndex = .notStarted
          · simp only [runEffect, hp, if_false, hq, hk, hs, if_true, Bool.false_eq_true]
            have hknot : requiresMissingKey cfg.keys api = false := by
              revert hk; cases requiresMissingKey cfg.keys api <;> simp
            refine ⟨?_, ?_, ?_, ?_, ?_, ?_⟩
            · intro i hi
              dsimp only at hi ⊢
              by_cases hii : i = s.currentApiIndex
              · omega
              · rw [setStatus_other _ _ _ _ hii] at hi
                exact hInv.touched_le i hi
            · intro i him
              dsimp only at him ⊢
              rcases List.mem_append.1 him with him | him
              · by_cases hii : i = s.currentApiIndex
                · subst hii; rw [setStatus_same]; intro hcon; cases hcon
                · rw [setStatus_other _ _ _ _ hii]
                  exact hInv.launched_started i him
              · have : i = s.currentApiIndex := by simpa using him
                subst this; rw [setStatus_same]; intro hcon; cases hcon
            · intro i him
              dsimp only at him ⊢
              rcases List.mem_append.1 him with him | him
              · exact hInv.launched_hasKey i him
              · have : i = s.currentApiIndex := by simpa using him
                subst this; exact ⟨api, hq, hknot⟩
            · intro i him
              dsimp only at him ⊢
              rcases List.mem_append.1 him with him | him
              · exact hInv.launched_le i him
              · have : i = s.currentApiIndex := by simpa using him
                omega
            · dsimp only
              refine List.Chain'.append hInv.launched_sorted
                (List.chain'_singleton _) ?_
              intro x hx y hy
              have hy2 : s.currentApiIndex = y := by simpa using hy
              obtain ⟨hne, hlast⟩ := List.mem_getLast?_eq_getLast hx
              have hxm : x ∈ s.launched := hlast ▸ List.getLast_mem hne
              have hxle := hInv.launched_le x hxm
              have hxst := hInv.launched_started x hxm
              have hxne : x ≠ s.currentApiIndex := fun hcon => hxst (hcon ▸ hs)
              omega
            · intro i hi
              dsimp only at hi ⊢
              by_cases hii : i = s.currentApiIndex
              · subst hii; rw [setStatus_same] at hi; cases hi
              · rw [setStatus_other _ _ _ _ hii] at hi
                exact hInv.skipped_missingKey i hi
          · simp only [runEffect, hp, if_false, hq, hk, hs, if_true, if_false,
              Bool.false_eq_true]
            exact ⟨hInv.touched_le, hInv.launched_started, hInv.launched_hasKey,
              hInv.launched_le, hInv.launched_sorted, hInv.skipped_missingKey⟩

theorem applyEvent_inv (cfg : LoaderConfig) (s : LoaderState) (e : LoaderEvent)
    (hInv : LoaderInv cfg s) : LoaderInv cfg (applyEvent cfg s e) := by
  cases e with
  | hookSuccess api =>
    by_cases hg : cfg.apiPriority[s.currentApiIndex]? = some api ∧ api ≠ .local ∧
        s.statuses s.currentApiIndex = .running
    · simp only [applyEvent]
      rw [if_pos hg]
      refine ⟨?_, ?_, hInv.launched_hasKey, hInv.launched_le, hInv.launched_sorted, ?_⟩
      · intro i hi
        dsimp only at hi ⊢
        by_cases hii : i = s.currentApiIndex
        · omega
        · rw [setStatus_other _ _ _ _ hii] at hi
          exact hInv.touched_le i hi
      · intro i him
        dsimp only at him ⊢
        by_cases hii : i = s.currentApiIndex
        · subst hii; rw [setStatus_same]; intro hcon; cases hcon
        · rw [setStatus_other _ _ _ _ hii]
          exact hInv.launched_started i him
      · intro i hi
        dsimp only at hi ⊢
        by_cases hii : i = s.currentApiIndex
        · subst hii; rw [setStatus_same] at hi; cases hi
        · rw [setStatus_other _ _ _ _ hii] at hi
          exact hInv.skipped_missingKey i hi
    · simp only [applyEvent]
      rw [if_neg hg]
      exact hInv
  | hookError api =>
    by_cases hg : cfg.apiPriority[s.currentApiIndex]? = some api ∧ api ≠ .local ∧
        s.statuses s.currentApiIndex = .running
    · simp only [applyEvent]
      rw [if_pos hg]
      refine ⟨?_, ?_, hInv.launched_hasKey, ?_, hInv.launched_sorted, ?_⟩
      · intro i hi
        dsimp only at hi ⊢
        by_cases hii : i = s.currentApiIndex
        · omega
        · rw [setStatus_other _ _ _ _ hii] at hi
          exact Nat.le_trans (hInv.touched_le i hi) (Nat.le_succ _)
      · intro i him
        dsimp only at him ⊢
        by_cases hii : i = s.currentApiIndex
        · subst hii; rw [setStatus_same]; intro hcon; cases hcon
        · rw [setStatus_other _ _ _ _ hii]
          exact hInv.launched_started i him
      · intro i him
        dsimp only at him ⊢
        exact Nat.le_trans (hInv.launched_le i him) (Nat.le_succ _)
      · intro i hi
        dsimp only at hi ⊢
        by_cases hii : i = s.currentApiIndex
        · subst hii; rw [setStatus_same] at hi; cases hi
        · rw [setStatus_other _ _ _ _ hii] at hi
          exact hInv.skipped_missingKey i hi
    · simp only [applyEvent]
      rw [if_neg hg]
      exact hInv
  | localSuccess =>
    by_cases hg : cfg.apiPriority[s.currentApiIndex]? = some Api.local ∧
        s.statuses s.currentApiIndex = .running
    · simp only [applyEvent]
      rw [if_pos hg]
      refine ⟨?_, ?_, hInv.launched_hasKey, hInv.launched_le, hInv.launched_sorted, ?_⟩
      · intro i hi
        dsimp only at hi ⊢
        by_cases hii : i = s.currentApiIndex
        · omega
        · rw [setStatus_other _ _ _ _ hii] at hi
          exact hInv.touched_le i hi
      · intro i him
        dsimp only at him ⊢
        by_cases hii : i = s.currentApiIndex
        · subst hii; rw [setStatus_same]; intro hcon; cases hcon
        · rw [setStatus_other _ _ _ _ hii]
          exact hInv.launched_started i him
      · intro i hi
        dsimp only at hi ⊢
        by_cases hii : i = s.currentApiIndex
        · subst hii; rw [setStatus_same] at hi; cases hi
        · rw [setStatus_other _ _ _ _ hii] at hi
          exact hInv.skipped_missingKey i hi
    · simp only [applyEvent]
      rw [if_neg hg]
      exact hInv
  | localError =>
    by_cases hg : cfg.apiPriority[s.currentApiIndex]? = some Api.local ∧
        s.statuses s.currentApiIndex = .running
    · simp only [applyEvent]
      rw [if_pos hg]
      refine ⟨?_, ?_, hInv.launched_hasKey, ?_, hInv.launched_sorted, ?_⟩
      · intro i hi
        dsimp only at hi ⊢
        by_cases hii : i = s.currentApiIndex
        · omega
        · rw [setStatus_other _ _ _ _ hii] at hi
          exact Nat.le_trans (hInv.touched_le i hi) (Nat.le_succ _)
      · intro i him
        dsimp only at him ⊢
        by_cases hii : i = s.currentApiIndex
        · subst hii; rw [setStatus_same]; intro hcon; cases hcon
        · rw [setStatus_other _ _ _ _ hii]
          exact hInv.launched_started i him
      · intro i him
        dsimp only at him ⊢
        exact Nat.le_trans (hInv.launched_le i him) (Nat.le_succ _)
      · intro i hi
        dsimp only at hi ⊢
        by_cases hii : i = s.currentApiIndex
        · subst hii; rw [setStatus_same] at hi; cases hi
        · rw [setStatus_other _ _ _ _ hii] at hi
          exact hInv.skipped_missingKey i hi
    · simp only [applyEvent]
      rw [if_neg hg]
      exact hInv
  | timerFire n =>
    rcases ht : s.timers[n]? with _ | ⟨i, api⟩
    · simpa [applyEvent, ht] using hInv
    · by_cases hl : api = Api.local
      · subst hl
        simp only [applyEvent, ht, if_pos rfl]
        exact ⟨hInv.touched_le, hInv.launched_started, hInv.launched_hasKey,
          hInv.launched_le, hInv.launched_sorted, hInv.skipped_missingKey⟩
      · simp only [applyEvent, ht, if_neg hl]
        by_cases hc : s.currentApiIndex = i ∧ s.statuses i = .running
        · rw [if_pos hc]
          refine ⟨?_, ?_, hInv.launched_hasKey, ?_, hInv.launched_sorted, ?_⟩
          · intro j hj
            dsimp only at hj ⊢
            by_cases hjj : j = i
            · omega
            · rw [setStatus_other _ _ _ _ hjj] at hj
              exact Nat.le_trans (hInv.touched_le j hj) (Nat.le_succ _)
          · intro j hjm
            dsimp only at hjm ⊢
            by_cases hjj : j = i
            · subst hjj; rw [setStatus_same]; intro hcon; cases hcon
            · rw [setStatus_other _ _ _ _ hjj]
              exact hInv.launched_started j hjm
          · intro j hjm
            dsimp only at hjm ⊢
            exact Nat.le_trans (hInv.launched_le j hjm) (Nat.le_succ _)
          · intro j hj
            dsimp only at hj ⊢
            by_cases hjj : j = i
            · subst hjj; rw [setStatus_same] at hj; cases hj
            · rw [setStatus_other _ _ _ _ hjj] at hj
              exact hInv.skipped_missingKey j hj
        · rw [if_neg hc]
          refine ⟨?_, hInv.launched_started, hInv.launched_hasKey, ?_,
            hInv.launched_sorted, hInv.skipped_missingKey⟩
          · intro j hj
            dsimp only at hj ⊢
            exact Nat.le_trans (hInv.touched_le j hj) (Nat.le_succ _)
          · intro j hjm
            dsimp only at hjm ⊢
            exact Nat.le_trans (hInv.launched_le j hjm) (Nat.le_succ _)

theorem initLoader_inv (cfg : LoaderConfig) : LoaderInv cfg initLoaderState := by
  refine ⟨?_, ?_, ?_, ?_, ?_, ?_⟩ <;>
    simp [initLoaderState, List.Chain'] <;> intro i hi <;> cases hi

theorem runLoader_inv (cfg : LoaderConfig) (evs : List LoaderEvent) :
    LoaderInv cfg (runLoader cfg evs) := by
  rw [runLoader]
  have hbase : LoaderInv cfg
      (runEffect cfg (cfg.apiPriority.length + 1) initLoaderState) :=
    runEffect_inv cfg _ _ (initLoader_inv cfg)
  generalize runEffect cfg (cfg.apiPriority.length + 1) initLoaderState = s at hbase ⊢
  induction evs generalizing s with
  | nil => exact hbase
  | cons e rest ih =>
    rw [List.foldl_cons]
    exact ih _ (runEffect_inv cfg _ _ (applyEvent_inv cfg s e hbase))

/-- C1: sequential failover in queue order.  (1) When the hook of the
current attempt reports an error, the orchestrator selects index i + 1
next and the attempt at i is terminal failed.  (2) When the 30-second
timer of the current running attempt fires (the attempt times out), the
orchestrator selects i + 1 next and the attempt is terminal timed out.
(3) A provider whose required credential is not configured is marked
skipped and the index advances past it without an attempt being
consumed.  (4) A skipped index is never launched.  (5) Over any event
sequence the launched indices form a strictly increasing list:
providers are never tried out of queue order. -/
theorem C1_failover_in_queue_order (cfg : LoaderConfig) :
    (∀ (s : LoaderState) (api : Api),
        cfg.apiPriority[s.currentApiIndex]? = some api → api ≠ .local →
        s.statuses s.currentApiIndex = .running →
        (applyEvent cfg s (.hookError api)).currentApiIndex = s.currentApiIndex + 1 ∧
          (applyEvent cfg s (.hookError api)).statuses s.currentApiIndex = .failed) ∧
      (∀ (s : LoaderState) (n i : Nat) (api : Api),
        s.timers[n]? = some (i, api) → api ≠ .local →
        s.currentApiIndex = i → s.statuses i = .running →
        (applyEvent cfg s (.timerFire n)).currentApiIndex = i + 1 ∧
          (applyEvent cfg s (.timerFire n)).statuses i = .timedOut) ∧
      (∀ (fuel : Nat) (s : LoaderState) (api : Api),
        s.isProcessing = false →
        cfg.apiPriority[s.currentApiIndex]? = some api →
        requiresMissingKey cfg.keys api = true →
        (runEffect cfg (fuel + 1) s).statuses s.currentApiIndex = .skipped ∧
          s.currentApiIndex + 1 ≤ (runEffect cfg (fuel + 1) s).currentApiIndex) ∧
      (∀ (evs : List LoaderEvent) (i : Nat),
        (runLoader cfg evs).statuses i = .skipped →
          i ∉ (runLoader cfg evs).launched) ∧
      (∀ evs : List LoaderEvent, List.Chain' (· < ·) (runLoader cfg evs).launched) := by
  refine ⟨?_, ?_, ?_, ?_, ?_⟩
  · intro s api h1 h2 h3
    simp only [applyEvent]
    rw [if_pos ⟨h1, h2, h3⟩]
    exact ⟨rfl, setStatus_same _ _ _⟩
  · intro s n i api ht hl hidx hrun
    simp only [applyEvent, ht]
    rw [if_neg hl]
    dsimp only
    constructor
    · omega
    · rw [if_pos ⟨hidx, hrun⟩]
      exact setStatus_same _ _ _
  · intro fuel s api hp hq hk
    simp only [runEffect, hp, Bool.false_eq_true, if_false, hq, hk, if_true]
    constructor
    · rw [runEffect_statuses_lower cfg fuel _ s.currentApiIndex (by dsimp only; omega)]
      exact setStatus_same _ _ _
    · exact runEffect_idx_mono cfg fuel
        { s with
          currentApiIndex := s.currentApiIndex + 1
          isProcessing := false
          statuses := setStatus s.statuses s.currentApiIndex .skipped }
  · intro evs i hsk hmem
    have hInv := runLoader_inv cfg evs
    obtain ⟨apiT, hgetT, hTrue⟩ := hInv.skipped_missingKey i hsk
    obtain ⟨apiF, hgetF, hFalse⟩ := hInv.launched_hasKey i hmem
    rw [hgetT] at hgetF
    cases hgetF
    rw [hTrue] at hFalse
    cases hFalse
  · intro evs
    exact (runLoader_inv cfg evs).launched_sorted

/-- Default configuration: the source priority queue with every key
configured. -/
def cfg7 : LoaderConfig :=
  ⟨[.meshy, .rodin, .csm, .huggingface, .local], ⟨true, true, true, true⟩⟩

/-- Configuration for the skip scenario: Meshy requires a key and none
is configured. -/
def cfgSkip : LoaderConfig :=
  ⟨[.meshy, .rodin, .csm, .huggingface, .local], ⟨false, true, true, true⟩⟩

/-- C1, witness: the queue-order theorem applied at concrete states —
the initial state of the full-keys session (meshy running at index 0)
for the error and timeout transitions, the keyless-meshy session for
the skip and never-launched parts, and the two-event trace for the
strictly-increasing launch order. -/
theorem C1_failover_in_queue_order_witness :
    ((applyEvent cfg7 (runLoader cfg7 []) (.hookError .meshy)).currentApiIndex =
        (runLoader cfg7 []).currentApiIndex + 1 ∧
      (applyEvent cfg7 (runLoader cfg7 []) (.hookError .meshy)).statuses
        (runLoader cfg7 []).currentApiIndex = .failed) ∧
      ((applyEvent cfg7 (runLoader cfg7 []) (.timerFire 0)).currentApiIndex = 0 + 1 ∧
        (applyEvent cfg7 (runLoader cfg7 []) (.timerFire 0)).statuses 0 = .timedOut) ∧
      ((runEffect cfgSkip (5 + 1) initLoaderState).statuses
          initLoaderState.currentApiIndex = .skipped ∧
        initLoaderState.currentApiIndex + 1 ≤
          (runEffect cfgSkip (5 + 1) initLoaderState).currentApiIndex) ∧
      (0 ∉ (runLoader cfgSkip []).launched) ∧
      List.Chain' (· < ·) (runLoader cfg7 [.hookError .meshy, .timerFire 0]).launched :=
  ⟨(C1_failover_in_queue_order cfg7).1 (runLoader cfg7 []) .meshy
      (by decide) (by decide) (by decide),
    (C1_failover_in_queue_order cfg7).2.1 (runLoader cfg7 []) 0 0 .meshy
      (by decide) (by decide) (by decide) (by decide),
    (C1_failover_in_queue_order cfgSkip).2.2.1 5 initLoaderState .meshy
      (by decide) (by decide) (by decide),
    (C1_failover_in_queue_order cfgSkip).2.2.2.1 [] 0 (by decide),
    (C1_failover_in_queue_order cfg7).2.2.2.2 [.hookError .meshy, .timerFire 0]⟩

/-- C7, code bug evidence: with every key configured, run the queue
[meshy, rodin, csm, huggingface, local]; meshy's attempt fails before
its own 30-second timer (so rodin starts), then meshy's stale timer
fires — the callback only checks the dead `modelGenerated` flag and
`apiToTry !== 'local'`, not whether the index still points at meshy —
releasing `isProcessing` and advancing the index, so csm starts while
rodin's attempt is still running: two attempts are running at once,
violating the one-running invariant the claim states. -/
theorem C7_stale_timer_two_running :
    (runLoader cfg7 [.hookError .meshy, .timerFire 0]).statuses 1 = .running ∧
      (runLoader cfg7 [.hookError .meshy, .timerFire 0]).statuses 2 = .running ∧
      runningCount cfg7 (runLoader cfg7 [.hookError .meshy, .timerFire 0]) = 2 ∧
      ¬ runningCount cfg7 (runLoader cfg7 [.hookError .meshy, .timerFire 0]) ≤ 1 := by
  refine ⟨by decide, by decide, by decide, by decide⟩
